import Mathlib

/-!
Verification development for the Fatebound battle engine
(src/components/BattleArena.tsx, src/constants.ts, src/types.ts).

Shallow embedding notes:
* JavaScript numbers appearing in game logic (health, mana, shield, cost,
  value, turn) are modelled as `Int`; all clamping (`Math.max`, `Math.min`)
  is written explicitly, exactly where the source clamps.
* The ephemeral presentation-only fields of `GameState`
  (`lastPlayedCard`, `floatingTexts`, `shake`) and the cosmetic `image`
  field of `Card` are omitted, as the spec's data model allows for a
  non-visual reimplementation; they are written and read only by rendering
  code and never influence the battle logic modelled here.
* The external text-generation collaborator is modelled by its
  deterministic fallback string (the `catch` branch of `playCard`), and the
  exact wording of battle-log strings is abbreviated where the original
  contains characters irrelevant to the logic; no claim depends on the
  specific text of a log entry, only on which entries are appended.
* `String.prototype.includes` and `String.prototype.toLowerCase` are
  modelled by `strIncludes` / `strToLower` below.
* The deck shuffle at battle creation is modelled by quantifying over an
  arbitrary deck order.
-/

namespace Fatebound

/-- Realm enum from src/types.ts. -/
inductive Realm where
  | FIRE
  | ICE
  | TECH
  | FOREST
deriving DecidableEq, Repr

/-- CardType enum from src/types.ts. -/
inductive CardType where
  | ATTACK
  | SPELL
  | MINION
  | WEAPON
deriving DecidableEq, Repr

/-- The two sides of a battle ('player' | 'opponent' string literals in the source). -/
inductive Side where
  | player
  | opponent
deriving DecidableEq, Repr

/-- Card record from src/types.ts (cosmetic optional `image` field omitted). -/
structure Card where
  id : String
  name : String
  cost : Int
  type : CardType
  value : Int
  description : String
  realm : Realm
deriving DecidableEq, Repr

/-- A champion's ability record from src/types.ts. -/
structure Ability where
  name : String
  description : String
  cost : Int
deriving DecidableEq, Repr

/-- Champion record from src/types.ts (`image` kept as a plain string). -/
structure Champion where
  id : String
  name : String
  title : String
  realm : Realm
  health : Int
  maxHealth : Int
  ability : Ability
  image : String
  description : String
deriving DecidableEq, Repr

/-- PlayerState record from src/types.ts: one combatant's battle state. -/
structure PlayerState where
  champion : Champion
  health : Int
  maxHealth : Int
  mana : Int
  maxMana : Int
  deck : List Card
  hand : List Card
  graveyard : List Card
  shield : Int
  abilityUsed : Bool
deriving DecidableEq, Repr

/-- GameState record from src/types.ts, minus the presentation-only fields
(`lastPlayedCard`, `floatingTexts`, `shake`). -/
structure GameState where
  player : PlayerState
  opponent : PlayerState
  turn : Int
  isPlayerTurn : Bool
  battleLog : List String
  winner : Option Side
deriving DecidableEq, Repr

/-- Helper for `strIncludes`: does the second list start with the first? -/
def listHasPfx : List Char → List Char → Bool
  | [], _ => true
  | _ :: _, [] => false
  | c :: cs, d :: ds => c == d && listHasPfx cs ds

/-- Helper for `strIncludes`: does the pattern occur contiguously in the list? -/
def listHasSub : List Char → List Char → Bool
  | pat, [] => listHasPfx pat []
  | pat, d :: ds => listHasPfx pat (d :: ds) || listHasSub pat ds

/-- Model of JavaScript `s.includes(pat)` (case-sensitive substring test). -/
def strIncludes (s pat : String) : Bool :=
  listHasSub pat.toList s.toList

/-- Model of JavaScript `s.toLowerCase()` for the ASCII descriptions in the catalog. -/
def strToLower (s : String) : String :=
  String.mk (s.toList.map Char.toLower)

/-- Project one side's combatant state out of the game state. -/
def GameState.side (g : GameState) : Side → PlayerState
  | Side.player => g.player
  | Side.opponent => g.opponent

/-- Replace one side's combatant state (`{...prev, [key]: entity}` in the source). -/
def GameState.setSide (g : GameState) : Side → PlayerState → GameState
  | Side.player, p => { g with player := p }
  | Side.opponent, p => { g with opponent := p }

/-- The opposite side (`opponentKey` computation in the source). -/
def Side.other : Side → Side
  | Side.player => Side.opponent
  | Side.opponent => Side.player

/-- `drawCard` from BattleArena.tsx lines 132-141: move up to `count` cards
from the front of the deck to the end of the hand, skipping any iteration in
which the deck is empty or the hand already holds 6 cards. -/
def drawCard (state : PlayerState) (count : Nat) : PlayerState :=
  match count with
  | 0 => state
  | n + 1 =>
    match state.deck with
    | [] => drawCard state n
    | c :: rest =>
      if state.hand.length < 6 then
        drawCard { state with deck := rest, hand := state.hand ++ [c] } n
      else
        drawCard state n

/-- How many cards a `drawCard` call actually moves: limited by the request,
the remaining deck, and the room left under the 6-card hand cap. -/
def drawCount (state : PlayerState) (count : Nat) : Nat :=
  min count (min state.deck.length (6 - state.hand.length))

/-- `createInitialState` from BattleArena.tsx lines 36-47, with the shuffled
deck passed in as an arbitrary order. -/
def createInitialState (champ : Champion) (deck : List Card) : PlayerState :=
  { champion := champ
    health := champ.maxHealth
    maxHealth := champ.maxHealth
    mana := 1
    maxMana := 1
    deck := deck
    hand := []
    graveyard := []
    shield := 0
    abilityUsed := false }

/-- Battle creation (the `useState` initializer plus the mount-time effect that
draws the two opening hands of 3), BattleArena.tsx lines 51-74 and 144-152. -/
def initGameState (pc : Champion) (pdeck : List Card) (oc : Champion) (odeck : List Card) :
    GameState :=
  { player := drawCard (createInitialState pc pdeck) 3
    opponent := drawCard (createInitialState oc odeck) 3
    turn := 1
    isPlayerTurn := true
    battleLog := ["Battle Started!"]
    winner := none }

/-- `endTurn` from BattleArena.tsx lines 154-191: flip the turn, bump the turn
number when control returns to the player, refill the new active side's mana to
`min 10 turn`, reset its shield and ability flag, and draw it one card. -/
def endTurn (g : GameState) : GameState :=
  let nextTurnNum : Int := if g.isPlayerTurn then g.turn else g.turn + 1
  let nextIsPlayer : Bool := !g.isPlayerTurn
  let activeKey : Side := if nextIsPlayer then Side.player else Side.opponent
  let entity := g.side activeKey
  let newMaxMana : Int := min 10 nextTurnNum
  let entity1 := drawCard
    { entity with maxMana := newMaxMana, mana := newMaxMana, shield := 0, abilityUsed := false } 1
  let g1 := { g with turn := nextTurnNum, isPlayerTurn := nextIsPlayer }
  let g2 := g1.setSide activeKey entity1
  { g2 with battleLog := g2.battleLog ++ [if nextIsPlayer then "Players Turn" else "Opponents Turn"] }

/-- `castAbility` from BattleArena.tsx lines 194-243: no-op when mana is short
or the ability was already used this turn; otherwise pay the cost, set the
flag, log the cast, and dispatch on the ability name. Note the source applies
Inferno damage straight to health (no shield interaction) and performs no win
check here. -/
def castLogLine (user : Side) (abilityName : String) : String :=
  (if user = Side.player then "You" else "Opponent") ++ " used " ++ abilityName ++ "!"

def castAbility (user : Side) (g : GameState) : GameState :=
  let activeChar := g.side user
  let ability := activeChar.champion.ability
  if activeChar.mana < ability.cost ∨ activeChar.abilityUsed = true then g
  else
    let g1 := g.setSide user
      { activeChar with mana := activeChar.mana - ability.cost, abilityUsed := true }
    let g1 := { g1 with battleLog := g1.battleLog ++ [castLogLine user ability.name] }
    if ability.name = "Inferno" ∨ strIncludes ability.name "damage" = true then
      g1.setSide user.other
        { g1.side user.other with health := max 0 ((g1.side user.other).health - 3) }
    else if ability.name = "Glacial Wall" ∨ strIncludes ability.name "Shield" = true then
      g1.setSide user { g1.side user with shield := (g1.side user).shield + 4 }
    else if ability.name = "Regrowth" ∨ strIncludes ability.name "Heal" = true then
      g1.setSide user
        { g1.side user with health := min activeChar.maxHealth (activeChar.health + 3) }
    else if ability.name = "Overclock" ∨ strIncludes ability.name "Draw" = true then
      g1.setSide user (drawCard (g1.side user) 2)
    else g1

/-- The four local effect variables of `playCard` (`damage`, `heal`, `shield`,
`manaGain`), BattleArena.tsx lines 284-304. -/
structure Deltas where
  damage : Int
  heal : Int
  shieldGain : Int
  manaGain : Int
deriving DecidableEq, Repr

/-- The effect-parsing logic of `playCard`, BattleArena.tsx lines 289-304:
type-plus-keyword classification of the card's numeric value, including the
Weapon "Atk" override and the all-zero Attack fallback. -/
def effectAmounts (card : Card) : Deltas :=
  let damage : Int :=
    if card.type = CardType.ATTACK ∨ card.type = CardType.MINION ∨
        (card.type = CardType.SPELL ∧ strIncludes (strToLower card.description) "dmg" = true)
    then card.value else 0
  let heal : Int :=
    if (card.type = CardType.SPELL ∨ card.type = CardType.WEAPON) ∧
        strIncludes card.description "Heal" = true
    then card.value else 0
  let shieldGain : Int :=
    if (card.type = CardType.SPELL ∨ card.type = CardType.WEAPON) ∧
        strIncludes card.description "Shield" = true
    then card.value else 0
  let manaGain : Int :=
    if (card.type = CardType.SPELL ∨ card.type = CardType.WEAPON) ∧
        strIncludes card.description "Mana" = true
    then card.value else 0
  let damage : Int :=
    if card.type = CardType.WEAPON ∧ strIncludes card.description "Atk" = true
    then card.value else damage
  let damage : Int :=
    if damage = 0 ∧ heal = 0 ∧ shieldGain = 0 ∧ manaGain = 0 ∧ card.type = CardType.ATTACK
    then card.value else damage
  { damage := damage, heal := heal, shieldGain := shieldGain, manaGain := manaGain }

/-- The damage-application block of `playCard`, BattleArena.tsx lines 306-328:
shield absorbs first, the remainder hits health, floored at 0. -/
def applyDamage (t : PlayerState) (damage : Int) : PlayerState :=
  if 0 < damage then
    if 0 < t.shield then
      if damage ≤ t.shield then
        { t with shield := t.shield - damage, health := max 0 (t.health - 0) }
      else
        { t with shield := 0, health := max 0 (t.health - (damage - t.shield)) }
    else
      { t with health := max 0 (t.health - damage) }
  else t

/-- The heal-application block of `playCard`, BattleArena.tsx lines 331-336. -/
def applyHeal (p : PlayerState) (heal : Int) : PlayerState :=
  if 0 < heal then { p with health := min p.maxHealth (p.health + heal) } else p

/-- The shield-application block of `playCard`, BattleArena.tsx lines 339-344. -/
def applyShieldGain (p : PlayerState) (s : Int) : PlayerState :=
  if 0 < s then { p with shield := p.shield + s } else p

/-- The mana-application block of `playCard`, BattleArena.tsx lines 347-351. -/
def applyManaGain (p : PlayerState) (m : Int) : PlayerState :=
  if 0 < m then { p with mana := min 10 (p.mana + m) } else p

/-- The commentary string appended to the battle log when a card resolves,
modelled by the deterministic fallback of the `try`/`catch` at
BattleArena.tsx lines 270-273. -/
def flavorText (card : Card) (user : Side) : String :=
  (if user = Side.player then "player" else "opponent") ++ " uses " ++ card.name

/-- The first `setGameState` transaction of `playCard`, BattleArena.tsx lines
252-264: remove the card from hand (by id), append it to the graveyard, and
deduct its cost from mana — unconditionally. -/
def payAndMove (card : Card) (user : Side) (g : GameState) : GameState :=
  let a := g.side user
  g.setSide user
    { a with
      hand := a.hand.filter (fun c => c.id != card.id)
      graveyard := a.graveyard ++ [card]
      mana := a.mana - card.cost }

/-- The effect portion of the second `setGameState` transaction of `playCard`,
BattleArena.tsx lines 275-351: log the commentary, then apply damage to the
target and heal/shield/mana gain to the acting side. -/
def applyEffects (card : Card) (user : Side) (g : GameState) : GameState :=
  let d := effectAmounts card
  let g1 := { g with battleLog := g.battleLog ++ [flavorText card user] }
  let g2 := g1.setSide user.other (applyDamage (g1.side user.other) d.damage)
  let g3 := g2.setSide user (applyHeal (g2.side user) d.heal)
  let g4 := g3.setSide user (applyShieldGain (g3.side user) d.shieldGain)
  g4.setSide user (applyManaGain (g4.side user) d.manaGain)

/-- The win-condition check at the end of `playCard`, BattleArena.tsx lines
353-361: the player check runs first and the opponent check second, so when
both healths are non-positive the final winner is `player`. -/
def checkWin (g : GameState) : GameState :=
  let w1 : Option Side := if g.player.health ≤ 0 then some Side.opponent else g.winner
  let w2 : Option Side := if g.opponent.health ≤ 0 then some Side.player else w1
  { g with winner := w2 }

/-- `playCard` from BattleArena.tsx lines 245-369: guarded on an existing
winner, then pay-and-move, apply effects, and check the win condition. -/
def playCard (card : Card) (user : Side) (g : GameState) : GameState :=
  if g.winner.isSome then g
  else checkWin (applyEffects card user (payAndMove card user g))

/-- The three player intents of the engine. -/
inductive Intent where
  | play (card : Card)
  | ability
  | endT
deriving DecidableEq, Repr

/-- The side whose turn it is, which is the side the UI and AI let act. -/
def actingSide (g : GameState) : Side :=
  if g.isPlayerTurn then Side.player else Side.opponent

/-- Validity of an intent, per the spec's caller-side checks: no intent after a
winner is set; a played card must be in the acting side's hand and affordable;
an ability cast must be affordable and unused this turn. -/
def validIntent (g : GameState) : Intent → Prop
  | Intent.play card =>
      g.winner = none ∧ card ∈ (g.side (actingSide g)).hand ∧
        card.cost ≤ (g.side (actingSide g)).mana
  | Intent.ability =>
      g.winner = none ∧
        (g.side (actingSide g)).champion.ability.cost ≤ (g.side (actingSide g)).mana ∧
        (g.side (actingSide g)).abilityUsed = false
  | Intent.endT => g.winner = none

/-- Apply an intent for the acting side. -/
def applyIntent (g : GameState) : Intent → GameState
  | Intent.play card => playCard card (actingSide g) g
  | Intent.ability => castAbility (actingSide g) g
  | Intent.endT => endTurn g

/-- States reachable from a given start state by sequences of valid intents. -/
inductive Reachable (g0 : GameState) : GameState → Prop
  | refl : Reachable g0 g0
  | step {g : GameState} {i : Intent} :
      Reachable g0 g → validIntent g i → Reachable g0 (applyIntent g i)

/-! ### Catalog fixtures (src/constants.ts) used by concrete test states -/

/-- Champion Ignis from src/constants.ts (ability Inferno: deal 3 damage). -/
def ignis : Champion :=
  { id := "c1"
    name := "Ignis"
    title := "The Burning Soul"
    realm := Realm.FIRE
    health := 30
    maxHealth := 30
    ability := { name := "Inferno", description := "Deal 3 damage to enemy.", cost := 3 }
    image := "https://picsum.photos/seed/ignis/300/400"
    description := "A master of pyromancy who believes the world must be cleansed by fire." }

/-- Champion Frostbite from src/constants.ts (ability Glacial Wall: gain 4 shield). -/
def frostbite : Champion :=
  { id := "c2"
    name := "Frostbite"
    title := "Warden of the North"
    realm := Realm.ICE
    health := 35
    maxHealth := 35
    ability := { name := "Glacial Wall", description := "Gain 4 Shield.", cost := 3 }
    image := "https://picsum.photos/seed/frost/300/400"
    description := "Cold and calculating, she freezes her enemies in their tracks." }

/-- Card Quick Strike from src/constants.ts: 1-cost Attack for 3 damage. -/
def quickStrike : Card :=
  { id := "n1", name := "Quick Strike", cost := 1, type := CardType.ATTACK, value := 3
    description := "Deal 3 damage.", realm := Realm.FIRE }

/-- Card Ice Shard from src/constants.ts: 1-cost Attack for 2 damage. -/
def iceShard : Card :=
  { id := "i1", name := "Ice Shard", cost := 1, type := CardType.ATTACK, value := 2
    description := "Deal 2 damage.", realm := Realm.ICE }

/-- Card Fireball from src/constants.ts: 3-cost Spell whose description
"Deal 6 damage." matches none of the resolver's keywords. -/
def fireball : Card :=
  { id := "f1", name := "Fireball", cost := 3, type := CardType.SPELL, value := 6
    description := "Deal 6 damage.", realm := Realm.FIRE }

/-- A combatant fixture: the given champion at full health with the given
mana, shield, deck and hand, ability unused, empty graveyard. -/
def mkSide (champ : Champion) (health mana shield : Int) (deck hand : List Card) :
    PlayerState :=
  { champion := champ
    health := health
    maxHealth := champ.maxHealth
    mana := mana
    maxMana := mana
    deck := deck
    hand := hand
    graveyard := []
    shield := shield
    abilityUsed := false }

/-! ### Documented bounds and the reachability invariant -/

/-- The catalog constraints on a card: non-negative cost and value. -/
def cardOK (c : Card) : Prop := 0 ≤ c.cost ∧ 0 ≤ c.value

instance (c : Card) : Decidable (cardOK c) := by unfold cardOK; infer_instance

/-- The documented bounds of one combatant: health in [0, maxHealth], mana in
[0, 10], shield non-negative, at most 6 cards in hand. -/
def boundsOK (p : PlayerState) : Prop :=
  0 ≤ p.health ∧ p.health ≤ p.maxHealth ∧ 0 ≤ p.mana ∧ p.mana ≤ 10 ∧
    0 ≤ p.shield ∧ p.hand.length ≤ 6

instance (p : PlayerState) : Decidable (boundsOK p) := by unfold boundsOK; infer_instance

/-- The inductive invariant for one combatant: the documented bounds plus the
bookkeeping facts needed to preserve them (non-negative ability cost, and
catalog-respecting cards in deck and hand). -/
def SideOK (p : PlayerState) : Prop :=
  boundsOK p ∧ 0 ≤ p.champion.ability.cost ∧
    (∀ c ∈ p.deck, cardOK c) ∧ (∀ c ∈ p.hand, cardOK c)

/-- The inductive invariant for the whole battle state. -/
def InvOK (g : GameState) : Prop :=
  SideOK g.player ∧ SideOK g.opponent ∧ 1 ≤ g.turn

theorem sideOK_of_invOK {g : GameState} (h : InvOK g) : ∀ s : Side, SideOK (g.side s) := by
  intro s
  cases s
  · exact h.1
  · exact h.2.1

/-- `drawCard` only moves cards from the front of the deck to the end of the
hand; the count actually moved is `drawCount`. -/
theorem drawCard_spec (n : Nat) (p : PlayerState) :
    drawCard p n =
      { p with deck := p.deck.drop (drawCount p n),
               hand := p.hand ++ p.deck.take (drawCount p n) } := by
  induction n generalizing p with
  | zero => simp [drawCard, drawCount]
  | succ n ih =>
    rw [drawCard]
    split
    next hd =>
      rw [ih]
      simp [drawCount, hd]
    next c rest hd =>
      by_cases hh : p.hand.length < 6
      · rw [if_pos hh, ih]
        have hk : drawCount p (n + 1) =
            drawCount { p with deck := rest, hand := p.hand ++ [c] } n + 1 := by
          simp [drawCount, hd]
          omega
        rw [hk, hd]
        simp [drawCount, List.drop_succ_cons, List.take_succ_cons]
      · rw [if_neg hh, ih]
        have hk : drawCount p (n + 1) = drawCount p n := by
          simp only [drawCount, hd]
          omega
        rw [hk]

/-- `drawCard` preserves the per-side invariant. -/
theorem drawCard_sideOK {p : PlayerState} (n : Nat) (h : SideOK p) :
    SideOK (drawCard p n) := by
  induction n generalizing p with
  | zero => simpa [drawCard] using h
  | succ n ih =>
    rw [drawCard]
    split
    next hd => exact ih h
    next c rest hd =>
      by_cases hh : p.hand.length < 6
      · rw [if_pos hh]
        apply ih
        obtain ⟨⟨h1, h2, h3, h4, h5, h6⟩, hab, hdk, hhd⟩ := h
        refine ⟨⟨h1, h2, h3, h4, h5, ?_⟩, hab, ?_, ?_⟩
        · simp only [List.length_append, List.length_singleton]
          omega
        · intro x hx
          exact hdk x (by simp [hd, hx])
        · intro x hx
          rcases List.mem_append.mp hx with hx | hx
          · exact hhd x hx
          · simp only [List.mem_singleton] at hx
            subst hx
            exact hdk x (by simp [hd])
      · rw [if_neg hh]
        exact ih h

@[simp] theorem side_player_eq (g : GameState) : g.side Side.player = g.player := rfl

@[simp] theorem side_opponent_eq (g : GameState) : g.side Side.opponent = g.opponent := rfl

@[simp] theorem setSide_player_eq (g : GameState) (p : PlayerState) :
    g.setSide Side.player p = { g with player := p } := rfl

@[simp] theorem setSide_opponent_eq (g : GameState) (p : PlayerState) :
    g.setSide Side.opponent p = { g with opponent := p } := rfl

@[simp] theorem other_player_eq : Side.player.other = Side.opponent := rfl

@[simp] theorem other_opponent_eq : Side.opponent.other = Side.player := rfl

theorem sideOK_setHealth {p : PlayerState} (h : SideOK p) {x : Int} (h1 : 0 ≤ x)
    (h2 : x ≤ p.maxHealth) : SideOK { p with health := x } := by
  obtain ⟨⟨_, _, h3, h4, h5, h6⟩, hab, hdk, hhd⟩ := h
  exact ⟨⟨h1, h2, h3, h4, h5, h6⟩, hab, hdk, hhd⟩

theorem sideOK_setShield {p : PlayerState} (h : SideOK p) {x : Int} (h1 : 0 ≤ x) :
    SideOK { p with shield := x } := by
  obtain ⟨⟨ha, hb, h3, h4, _, h6⟩, hab, hdk, hhd⟩ := h
  exact ⟨⟨ha, hb, h3, h4, h1, h6⟩, hab, hdk, hhd⟩

theorem sideOK_setMana {p : PlayerState} (h : SideOK p) {x : Int} (h1 : 0 ≤ x)
    (h2 : x ≤ 10) : SideOK { p with mana := x } := by
  obtain ⟨⟨ha, hb, _, _, h5, h6⟩, hab, hdk, hhd⟩ := h
  exact ⟨⟨ha, hb, h1, h2, h5, h6⟩, hab, hdk, hhd⟩

/-- Paying a champion ability's cost and setting the flag keeps the invariant. -/
theorem sideOK_payAbility {p : PlayerState} (h : SideOK p)
    (hc : p.champion.ability.cost ≤ p.mana) :
    SideOK { p with mana := p.mana - p.champion.ability.cost, abilityUsed := true } := by
  obtain ⟨⟨ha, hb, h3, h4, h5, h6⟩, hab, hdk, hhd⟩ := h
  have hm1 : (0 : Int) ≤ p.mana - p.champion.ability.cost := by omega
  have hm2 : p.mana - p.champion.ability.cost ≤ 10 := by omega
  exact ⟨⟨ha, hb, hm1, hm2, h5, h6⟩, hab, hdk, hhd⟩

/-- The damage-application block keeps the invariant for any non-negative amount. -/
theorem applyDamage_sideOK {t : PlayerState} {d : Int} (_hd : 0 ≤ d) (h : SideOK t) :
    SideOK (applyDamage t d) := by
  have h1 := h.1.1
  have h2 := h.1.2.1
  have h5 := h.1.2.2.2.2.1
  unfold applyDamage
  split
  · split
    · split
      · have hs1 : (0 : Int) ≤ t.shield - d := by omega
        have hh1 : (0 : Int) ≤ max 0 (t.health - 0) := le_max_left 0 _
        have hh2 : max 0 (t.health - 0) ≤ t.maxHealth := by omega
        exact sideOK_setHealth (sideOK_setShield h hs1) hh1 hh2
      · have hh1 : (0 : Int) ≤ max 0 (t.health - (d - t.shield)) := le_max_left 0 _
        have hh2 : max 0 (t.health - (d - t.shield)) ≤ t.maxHealth := by omega
        exact sideOK_setHealth (sideOK_setShield h le_rfl) hh1 hh2
    · have hh1 : (0 : Int) ≤ max 0 (t.health - d) := le_max_left 0 _
      have hh2 : max 0 (t.health - d) ≤ t.maxHealth := by omega
      exact sideOK_setHealth h hh1 hh2
  · exact h

/-- The heal-application block keeps the invariant for any non-negative amount. -/
theorem applyHeal_sideOK {p : PlayerState} {x : Int} (_hx : 0 ≤ x) (h : SideOK p) :
    SideOK (applyHeal p x) := by
  have h1 := h.1.1
  have h2 := h.1.2.1
  unfold applyHeal
  split
  · have hh1 : (0 : Int) ≤ min p.maxHealth (p.health + x) := by omega
    have hh2 : min p.maxHealth (p.health + x) ≤ p.maxHealth := min_le_left _ _
    exact sideOK_setHealth h hh1 hh2
  · exact h

/-- The shield-application block keeps the invariant for any non-negative amount. -/
theorem applyShieldGain_sideOK {p : PlayerState} {x : Int} (_hx : 0 ≤ x) (h : SideOK p) :
    SideOK (applyShieldGain p x) := by
  have h5 := h.1.2.2.2.2.1
  unfold applyShieldGain
  split
  · exact sideOK_setShield h (by omega)
  · exact h

/-- The mana-application block keeps the invariant for any non-negative amount. -/
theorem applyManaGain_sideOK {p : PlayerState} {x : Int} (_hx : 0 ≤ x) (h : SideOK p) :
    SideOK (applyManaGain p x) := by
  have h3 := h.1.2.2.1
  unfold applyManaGain
  split
  · exact sideOK_setMana h (by omega) (min_le_left _ _)
  · exact h

/-- The pay-and-move transaction keeps the invariant when the card is affordable
and catalog-respecting. -/
theorem payAndMove_sideOK {a : PlayerState} {card : Card} (h : SideOK a)
    (hcost : 0 ≤ card.cost) (haff : card.cost ≤ a.mana) :
    SideOK { a with hand := a.hand.filter (fun c => c.id != card.id),
                    graveyard := a.graveyard ++ [card],
                    mana := a.mana - card.cost } := by
  obtain ⟨⟨h1, h2, h3, h4, h5, h6⟩, hab, hdk, hhd⟩ := h
  have hm1 : (0 : Int) ≤ a.mana - card.cost := by omega
  have hm2 : a.mana - card.cost ≤ 10 := by omega
  have hl : (a.hand.filter (fun c => c.id != card.id)).length ≤ 6 :=
    le_trans (List.length_filter_le _ _) h6
  have hh : ∀ c ∈ a.hand.filter (fun c => c.id != card.id), cardOK c :=
    fun c hc => hhd c (List.mem_of_mem_filter hc)
  exact ⟨⟨h1, h2, hm1, hm2, h5, hl⟩, hab, hdk, hh⟩

/-- The four parsed effect amounts of a catalog-respecting card are non-negative. -/
theorem effectAmounts_nonneg {card : Card} (h : cardOK card) :
    0 ≤ (effectAmounts card).damage ∧ 0 ≤ (effectAmounts card).heal ∧
      0 ≤ (effectAmounts card).shieldGain ∧ 0 ≤ (effectAmounts card).manaGain := by
  obtain ⟨_, hv⟩ := h
  unfold effectAmounts
  refine ⟨?_, ?_, ?_, ?_⟩ <;> dsimp only [] <;> (repeat' split) <;>
    first | exact hv | exact le_refl 0

/-- `endTurn` keeps the invariant: the refilled mana is `min 10 turn ∈ [0,10]`
because the turn counter never drops below 1. -/
theorem endTurn_invOK {g : GameState} (h : InvOK g) : InvOK (endTurn g) := by
  obtain ⟨hp, ho, ht⟩ := h
  have hOK : ∀ (p : PlayerState) (t : Int), SideOK p → 1 ≤ t →
      SideOK (drawCard
        { p with maxMana := min 10 t, mana := min 10 t, shield := 0, abilityUsed := false } 1) := by
    intro p t hpOK htt
    apply drawCard_sideOK
    obtain ⟨⟨h1, h2, _, _, _, h6⟩, hab, hdk, hhd⟩ := hpOK
    have hm1 : (0 : Int) ≤ min 10 t := by omega
    have hm2 : min 10 t ≤ 10 := by omega
    exact ⟨⟨h1, h2, hm1, hm2, le_refl 0, h6⟩, hab, hdk, hhd⟩
  unfold endTurn
  cases hb : g.isPlayerTurn
  · exact ⟨hOK g.player (g.turn + 1) hp (by omega), ho, show (1 : Int) ≤ g.turn + 1 by omega⟩
  · exact ⟨hp, hOK g.opponent g.turn ho ht, ht⟩

/-- `castAbility` keeps the invariant. -/
theorem castAbility_invOK (user : Side) {g : GameState} (h : InvOK g) :
    InvOK (castAbility user g) := by
  obtain ⟨hp, ho, ht⟩ := h
  cases user with
  | player =>
    unfold castAbility
    dsimp only []
    split
    · exact ⟨hp, ho, ht⟩
    next hg =>
      have hcm : (g.side Side.player).champion.ability.cost ≤ (g.side Side.player).mana :=
        not_lt.mp (not_or.mp hg).1
      have hpay : SideOK { g.player with
          mana := g.player.mana - g.player.champion.ability.cost, abilityUsed := true } :=
        sideOK_payAbility hp hcm
      split
      · -- Inferno: 3 damage straight to the opponent's health
        have hh1 : (0 : Int) ≤ max 0 (g.opponent.health - 3) := le_max_left 0 _
        have hh2 : max 0 (g.opponent.health - 3) ≤ g.opponent.maxHealth := by
          have := ho.1.1
          have := ho.1.2.1
          omega
        exact ⟨hpay, sideOK_setHealth ho hh1 hh2, ht⟩
      · split
        · -- Glacial Wall: gain 4 shield
          have hs : (0 : Int) ≤ g.player.shield + 4 := by
            have := hp.1.2.2.2.2.1
            omega
          exact ⟨sideOK_setShield hpay hs, ho, ht⟩
        · split
          · -- Regrowth: heal 3, capped at maxHealth
            have hh1 : (0 : Int) ≤ min g.player.maxHealth (g.player.health + 3) := by
              have := hp.1.1
              have := hp.1.2.1
              omega
            exact ⟨sideOK_setHealth hpay hh1 (min_le_left _ _), ho, ht⟩
          · split
            · -- Overclock: draw 2
              exact ⟨drawCard_sideOK 2 hpay, ho, ht⟩
            · exact ⟨hpay, ho, ht⟩
  | opponent =>
    unfold castAbility
    dsimp only []
    split
    · exact ⟨hp, ho, ht⟩
    next hg =>
      have hcm : (g.side Side.opponent).champion.ability.cost ≤ (g.side Side.opponent).mana :=
        not_lt.mp (not_or.mp hg).1
      have hpay : SideOK { g.opponent with
          mana := g.opponent.mana - g.opponent.champion.ability.cost, abilityUsed := true } :=
        sideOK_payAbility ho hcm
      split
      · have hh1 : (0 : Int) ≤ max 0 (g.player.health - 3) := le_max_left 0 _
        have hh2 : max 0 (g.player.health - 3) ≤ g.player.maxHealth := by
          have := hp.1.1
          have := hp.1.2.1
          omega
        exact ⟨sideOK_setHealth hp hh1 hh2, hpay, ht⟩
      · split
        · have hs : (0 : Int) ≤ g.opponent.shield + 4 := by
            have := ho.1.2.2.2.2.1
            omega
          exact ⟨hp, sideOK_setShield hpay hs, ht⟩
        · split
          · have hh1 : (0 : Int) ≤ min g.opponent.maxHealth (g.opponent.health + 3) := by
              have := ho.1.1
              have := ho.1.2.1
              omega
            exact ⟨hp, sideOK_setHealth hpay hh1 (min_le_left _ _), ht⟩
          · split
            · exact ⟨hp, drawCard_sideOK 2 hpay, ht⟩
            · exact ⟨hp, hpay, ht⟩

/-- The win check changes only the winner field, so it keeps the invariant. -/
theorem checkWin_invOK {g : GameState} (h : InvOK g) : InvOK (checkWin g) :=
  ⟨h.1, h.2.1, h.2.2⟩

/-- The effect transaction keeps the invariant for a catalog-respecting card. -/
theorem applyEffects_invOK {card : Card} (user : Side) {g : GameState}
    (hc : cardOK card) (h : InvOK g) : InvOK (applyEffects card user g) := by
  obtain ⟨hd, hh, hs, hm⟩ := effectAmounts_nonneg hc
  obtain ⟨hp, ho, ht⟩ := h
  cases user with
  | player =>
    exact ⟨applyManaGain_sideOK hm (applyShieldGain_sideOK hs (applyHeal_sideOK hh hp)),
      applyDamage_sideOK hd ho, ht⟩
  | opponent =>
    exact ⟨applyDamage_sideOK hd hp,
      applyManaGain_sideOK hm (applyShieldGain_sideOK hs (applyHeal_sideOK hh ho)), ht⟩

/-- The pay-and-move transaction keeps the invariant for an affordable in-hand card. -/
theorem payAndMove_invOK {card : Card} (user : Side) {g : GameState} (h : InvOK g)
    (hmem : card ∈ (g.side user).hand) (haff : card.cost ≤ (g.side user).mana) :
    InvOK (payAndMove card user g) := by
  have hc : cardOK card := (sideOK_of_invOK h user).2.2.2 card hmem
  obtain ⟨hp, ho, ht⟩ := h
  cases user with
  | player => exact ⟨payAndMove_sideOK hp hc.1 haff, ho, ht⟩
  | opponent => exact ⟨hp, payAndMove_sideOK ho hc.1 haff, ht⟩

/-- `playCard` keeps the invariant for an affordable in-hand card. -/
theorem playCard_invOK {card : Card} (user : Side) {g : GameState} (h : InvOK g)
    (hmem : card ∈ (g.side user).hand) (haff : card.cost ≤ (g.side user).mana) :
    InvOK (playCard card user g) := by
  have hc : cardOK card := (sideOK_of_invOK h user).2.2.2 card hmem
  unfold playCard
  split
  · exact h
  · exact checkWin_invOK (applyEffects_invOK user hc (payAndMove_invOK user h hmem haff))

/-- The battle-creation state satisfies the invariant whenever the chosen
champions and decks respect the catalog constraints. -/
theorem initGameState_invOK {pc oc : Champion} {pd od : List Card}
    (hp1 : 0 ≤ pc.maxHealth) (ho1 : 0 ≤ oc.maxHealth)
    (hp2 : 0 ≤ pc.ability.cost) (ho2 : 0 ≤ oc.ability.cost)
    (hp3 : ∀ c ∈ pd, cardOK c) (ho3 : ∀ c ∈ od, cardOK c) :
    InvOK (initGameState pc pd oc od) := by
  refine ⟨drawCard_sideOK 3 ?_, drawCard_sideOK 3 ?_, le_refl 1⟩
  · exact ⟨⟨hp1, le_refl _, by simp [createInitialState], by simp [createInitialState],
      le_refl 0, by simp [createInitialState]⟩, hp2, hp3,
      by intro c hc; simp [createInitialState] at hc⟩
  · exact ⟨⟨ho1, le_refl _, by simp [createInitialState], by simp [createInitialState],
      le_refl 0, by simp [createInitialState]⟩, ho2, ho3,
      by intro c hc; simp [createInitialState] at hc⟩

/-- One valid intent keeps the invariant. -/
theorem invOK_applyIntent {g : GameState} {i : Intent} (h : InvOK g)
    (hv : validIntent g i) : InvOK (applyIntent g i) := by
  cases i with
  | play card => exact playCard_invOK (actingSide g) h hv.2.1 hv.2.2
  | ability => exact castAbility_invOK (actingSide g) h
  | endT => exact endTurn_invOK h

/-- The invariant propagates along any sequence of valid intents. -/
theorem invOK_reachable {g0 g : GameState} (h0 : InvOK g0) (hr : Reachable g0 g) :
    InvOK g := by
  induction hr with
  | refl => exact h0
  | step hr hv ih => exact invOK_applyIntent ih hv

/-- An ability cast never touches the winner field (the source has no win
check in `castAbility`). -/
theorem castAbility_winner (user : Side) (g : GameState) :
    (castAbility user g).winner = g.winner := by
  cases user <;> unfold castAbility <;> dsimp only [] <;> (repeat' split) <;> rfl

/-- The effect transaction never touches the winner field. -/
theorem applyEffects_winner (card : Card) (user : Side) (g : GameState) :
    (applyEffects card user g).winner = g.winner := by
  cases user <;> rfl

/-- The pay-and-move transaction never touches the winner field. -/
theorem payAndMove_winner (card : Card) (user : Side) (g : GameState) :
    (payAndMove card user g).winner = g.winner := by
  cases user <;> rfl

theorem applyDamage_zero (t : PlayerState) : applyDamage t 0 = t := rfl

theorem applyHeal_zero (p : PlayerState) : applyHeal p 0 = p := rfl

theorem applyShieldGain_zero (p : PlayerState) : applyShieldGain p 0 = p := rfl

theorem applyManaGain_zero (p : PlayerState) : applyManaGain p 0 = p := rfl

/-- A one-card draw in closed form: take the front deck card unless the deck is
empty or the hand is already at the 6-card cap. -/
theorem drawCard_one (p : PlayerState) :
    drawCard p 1 =
      (match p.deck with
       | [] => p
       | c :: rest =>
         if p.hand.length < 6 then { p with deck := rest, hand := p.hand ++ [c] } else p) := by
  rw [drawCard]
  split
  · rfl
  · split <;> rfl

/-! ### Concrete battle states used by counterexamples and witnesses -/

/-- Ignis (mana 3, ability unused) facing Frostbite at 2 health: an Inferno
cast is lethal here. -/
def gAbility : GameState :=
  { player := mkSide ignis 30 3 0 [] []
    opponent := mkSide frostbite 2 1 0 [] []
    turn := 1
    isPlayerTurn := true
    battleLog := []
    winner := none }

/-- Ignis (mana 3, ability unused) facing Frostbite at 10 health behind a
4-point shield. -/
def gShielded : GameState :=
  { player := mkSide ignis 30 3 0 [] []
    opponent := mkSide frostbite 10 1 4 [] []
    turn := 1
    isPlayerTurn := true
    battleLog := []
    winner := none }

/-- Ignis with 0 mana holding the 1-cost Quick Strike. -/
def gPoor : GameState :=
  { player := mkSide ignis 30 0 0 [] [quickStrike]
    opponent := mkSide frostbite 35 1 0 [] []
    turn := 1
    isPlayerTurn := true
    battleLog := []
    winner := none }

/-- A finished battle: the winner is already set to the player. -/
def gOver : GameState :=
  { player := mkSide ignis 30 3 0 [] [quickStrike]
    opponent := mkSide frostbite 35 1 0 [] []
    turn := 2
    isPlayerTurn := true
    battleLog := []
    winner := some Side.player }

/-- A combatant at 5 health behind a 2-point shield, as a damage target. -/
def tC5 : PlayerState := mkSide ignis 5 1 2 [] []

/-- A fresh battle state created from concrete champions and one-card decks. -/
def gInit : GameState := initGameState ignis [quickStrike] frostbite [iceShard]

/-- Ignis (mana 5) holding Fireball, both sides alive, no winner. -/
def gFire : GameState :=
  { player := mkSide ignis 30 5 0 [] [fireball]
    opponent := mkSide frostbite 35 1 0 [] []
    turn := 1
    isPlayerTurn := true
    battleLog := []
    winner := none }

/-! ### The claims -/

/-- Claim C4, counterexample: with the winner already set, the end-turn intent
still flips the turn and the ability intent still resolves, so "each of the
three intents is a no-op once winner is set" is false on this state. -/
theorem C4_counterexample :
    gOver.winner = some Side.player ∧ endTurn gOver ≠ gOver ∧
      castAbility Side.player gOver ≠ gOver := by decide

/-- Claim C4, amended: only the play-card intent is guarded on the winner
field — when a winner is set, `playCard` returns the state unchanged, while
end-turn and ability casts are not winner-guarded. -/
theorem C4_theorem (g : GameState) (card : Card) (user : Side) (w : Side)
    (hw : g.winner = some w) : playCard card user g = g := by
  unfold playCard
  rw [hw]
  rfl

/-- Witness for C4: playing Quick Strike into the finished battle `gOver`
leaves it unchanged. -/
theorem C4_theorem_witness : playCard quickStrike Side.player gOver = gOver :=
  C4_theorem gOver quickStrike Side.player Side.player rfl

/-- Claim C5: damage of amount D against shield S reduces shield first; if
S ≥ D health is untouched, otherwise shield is zeroed and the remainder
reduces health, floored at 0. -/
theorem C5_theorem (t : PlayerState) (D : Int) (hD : 0 ≤ D) (hS : 0 ≤ t.shield)
    (hH : 0 ≤ t.health) :
    (D ≤ t.shield → applyDamage t D = { t with shield := t.shield - D }) ∧
    (t.shield < D →
      applyDamage t D =
        { t with shield := 0, health := max 0 (t.health - (D - t.shield)) }) := by
  constructor
  · intro hle
    unfold applyDamage
    by_cases h0 : (0 : Int) < D
    · rw [if_pos h0, if_pos (by omega : (0 : Int) < t.shield), if_pos hle]
      have hmax : max 0 (t.health - 0) = t.health := by omega
      rw [hmax]
    · rw [if_neg h0]
      have hD0 : D = 0 := by omega
      rw [hD0, sub_zero]
  · intro hlt
    unfold applyDamage
    rw [if_pos (by omega : (0 : Int) < D)]
    by_cases hs0 : (0 : Int) < t.shield
    · rw [if_pos hs0, if_neg (by omega : ¬D ≤ t.shield)]
    · rw [if_neg hs0]
      have h0 : t.shield = 0 := by omega
      rw [h0, sub_zero]

/-- Witness for C5: 3 damage against shield 2 and health 5 zeroes the shield
and lets the remaining 1 point through. -/
theorem C5_theorem_witness :
    applyDamage tC5 3 =
      { tC5 with shield := 0, health := max 0 (tC5.health - (3 - tC5.shield)) } :=
  (C5_theorem tC5 3 (by decide) (by decide) (by decide)).2 (by decide)

/-- Claim C6: the end-turn intent flips the turn flag, bumps the turn number
only when control returns to the player, gives the new active side
maxMana = mana = min 10 turn, shield 0, abilityUsed false, and then a one-card
draw subject to the 6-card hand cap, leaving the other side untouched. -/
theorem C6_theorem (g : GameState) :
    (endTurn g).turn = (if g.isPlayerTurn then g.turn else g.turn + 1) ∧
    (endTurn g).isPlayerTurn = !g.isPlayerTurn ∧
    (endTurn g).side (if g.isPlayerTurn then Side.opponent else Side.player) =
      drawCard
        { g.side (if g.isPlayerTurn then Side.opponent else Side.player) with
          maxMana := min 10 (if g.isPlayerTurn then g.turn else g.turn + 1),
          mana := min 10 (if g.isPlayerTurn then g.turn else g.turn + 1),
          shield := 0, abilityUsed := false } 1 ∧
    (endTurn g).side (if g.isPlayerTurn then Side.player else Side.opponent) =
      g.side (if g.isPlayerTurn then Side.player else Side.opponent) ∧
    (∀ p : PlayerState, drawCard p 1 =
      (match p.deck with
       | [] => p
       | c :: rest =>
         if p.hand.length < 6 then { p with deck := rest, hand := p.hand ++ [c] }
         else p)) := by
  unfold endTurn
  cases hb : g.isPlayerTurn <;> exact ⟨rfl, rfl, rfl, rfl, drawCard_one⟩

/-- Claim C7: an ability cast attempted with insufficient mana or an
already-used ability leaves the entire battle state unchanged. -/
theorem C7_theorem (g : GameState) (user : Side)
    (h : (g.side user).mana < (g.side user).champion.ability.cost ∨
      (g.side user).abilityUsed = true) :
    castAbility user g = g := by
  cases user with
  | player =>
    unfold castAbility
    dsimp only []
    split
    · rfl
    next hg => exact absurd h hg
  | opponent =>
    unfold castAbility
    dsimp only []
    split
    · rfl
    next hg => exact absurd h hg

/-- Witness for C7: with 0 mana against Inferno's cost of 3, the cast is a
no-op on `gPoor`. -/
theorem C7_theorem_witness : castAbility Side.player gPoor = gPoor :=
  C7_theorem gPoor Side.player (Or.inl (by decide))

/-- Claim C9: every draw takes cards one at a time from the front of the deck
and stops early at an empty deck or a 6-card hand; draws beyond either limit
are simply forfeited (the deck is not consumed past the moved prefix and
nothing is queued). -/
theorem C9_theorem (p : PlayerState) (count : Nat) :
    drawCard p count =
      { p with deck := p.deck.drop (drawCount p count),
               hand := p.hand ++ p.deck.take (drawCount p count) } :=
  drawCard_spec count p

/-- Claim C1, counterexample: a lethal Inferno cast zeroes the opponent's
health but leaves the winner unset, so the win check does not run after every
ability resolution. -/
theorem C1_counterexample :
    gAbility.opponent.health = 2 ∧
      (castAbility Side.player gAbility).opponent.health = 0 ∧
      (castAbility Side.player gAbility).winner = none ∧
      ¬(castAbility Side.player gAbility).winner = some Side.player := by decide

/-- Claim C1, amended: the winner is set immediately by the win check after
every card resolution (opponent dead → player wins, checked last, else player
dead → opponent wins), but ability resolutions never touch the winner field,
even when they reduce a side's health to 0. -/
theorem C1_theorem :
    (∀ (g : GameState) (user : Side), (castAbility user g).winner = g.winner) ∧
    (∀ (g : GameState) (card : Card) (user : Side), g.winner = none →
      (playCard card user g).winner =
        (if (playCard card user g).opponent.health ≤ 0 then some Side.player
         else if (playCard card user g).player.health ≤ 0 then some Side.opponent
         else none)) := by
  refine ⟨fun g user => castAbility_winner user g, ?_⟩
  intro g card user hw
  have hpc : playCard card user g =
      checkWin (applyEffects card user (payAndMove card user g)) := by
    unfold playCard
    rw [hw]
    rfl
  rw [hpc]
  have hE : (applyEffects card user (payAndMove card user g)).winner = none := by
    rw [applyEffects_winner, payAndMove_winner, hw]
  show (if (applyEffects card user (payAndMove card user g)).opponent.health ≤ 0 then
          some Side.player
        else if (applyEffects card user (payAndMove card user g)).player.health ≤ 0 then
          some Side.opponent
        else (applyEffects card user (payAndMove card user g)).winner) = _
  rw [hE]
  rfl

/-- Witness for C1: Quick Strike into the 2-health opponent of `gAbility` sets
the winner by the post-resolution win check. -/
theorem C1_theorem_witness :
    (playCard quickStrike Side.player gAbility).winner =
      (if (playCard quickStrike Side.player gAbility).opponent.health ≤ 0 then
        some Side.player
       else if (playCard quickStrike Side.player gAbility).player.health ≤ 0 then
        some Side.opponent
       else none) :=
  C1_theorem.2 gAbility quickStrike Side.player rfl

/-- Claim C2, counterexample: an Inferno cast against a 4-shield, 10-health
target leaves the shield at 4 and drops health to 7; the claimed
shield-first application (shield 1, health 10) is false. -/
theorem C2_counterexample :
    gShielded.opponent.shield = 4 ∧ gShielded.opponent.health = 10 ∧
      (castAbility Side.player gShielded).opponent.shield = 4 ∧
      (castAbility Side.player gShielded).opponent.health = 7 ∧
      ¬((castAbility Side.player gShielded).opponent.shield = 1 ∧
        (castAbility Side.player gShielded).opponent.health = 10) := by decide

/-- Claim C2, amended: a damage-archetype ability cast with sufficient mana and
the ability unused applies its 3 damage directly to the target's health,
floored at 0, ignoring (and not consuming) the target's shield, while paying
the cost and setting the flag. -/
theorem C2_theorem (g : GameState) (user : Side)
    (hname : (g.side user).champion.ability.name = "Inferno" ∨
      strIncludes (g.side user).champion.ability.name "damage" = true)
    (hmana : (g.side user).champion.ability.cost ≤ (g.side user).mana)
    (hused : (g.side user).abilityUsed = false) :
    (castAbility user g).side user.other =
      { g.side user.other with
        health := max 0 ((g.side user.other).health - 3) } ∧
    ((castAbility user g).side user).mana =
      (g.side user).mana - (g.side user).champion.ability.cost ∧
    ((castAbility user g).side user).abilityUsed = true := by
  have hguard : ¬((g.side user).mana < (g.side user).champion.ability.cost ∨
      (g.side user).abilityUsed = true) := by
    rw [not_or]
    exact ⟨not_lt.mpr hmana, by rw [hused]; exact Bool.false_ne_true⟩
  cases user with
  | player =>
    unfold castAbility
    dsimp only []
    rw [if_neg hguard, if_pos hname]
    exact ⟨rfl, rfl, rfl⟩
  | opponent =>
    unfold castAbility
    dsimp only []
    rw [if_neg hguard, if_pos hname]
    exact ⟨rfl, rfl, rfl⟩

/-- Witness for C2: on `gShielded`, Inferno leaves the opponent's shield alone
and applies the 3 damage straight to health. -/
theorem C2_theorem_witness :
    (castAbility Side.player gShielded).side Side.player.other =
      { gShielded.side Side.player.other with
        health := max 0 ((gShielded.side Side.player.other).health - 3) } ∧
    ((castAbility Side.player gShielded).side Side.player).mana =
      (gShielded.side Side.player).mana -
        (gShielded.side Side.player).champion.ability.cost ∧
    ((castAbility Side.player gShielded).side Side.player).abilityUsed = true :=
  C2_theorem gShielded Side.player (Or.inl rfl) (by decide) rfl

/-- Claim C3, counterexample: `playCard` never re-checks affordability — with
0 mana, playing the 1-cost in-hand Quick Strike changes the state and drives
mana to -1, so "unaffordable play leaves the state unchanged" is false. -/
theorem C3_counterexample :
    gPoor.player.mana = 0 ∧ quickStrike.cost = 1 ∧
      quickStrike ∈ gPoor.player.hand ∧
      (playCard quickStrike Side.player gPoor).player.mana = -1 ∧
      playCard quickStrike Side.player gPoor ≠ gPoor := by decide

/-- Claim C3, amended: whenever no winner is set, the play-card intent
unconditionally removes the card from hand, appends it to the graveyard, and
deducts the full cost (possibly driving mana negative) before resolving
effects and the win check; affordability is the caller's responsibility and is
never re-checked. -/
theorem C3_theorem (g : GameState) (card : Card) (user : Side)
    (hw : g.winner = none) :
    playCard card user g =
      checkWin (applyEffects card user (payAndMove card user g)) ∧
    (payAndMove card user g).side user =
      { g.side user with
        hand := (g.side user).hand.filter (fun c => c.id != card.id),
        graveyard := (g.side user).graveyard ++ [card],
        mana := (g.side user).mana - card.cost } := by
  constructor
  · unfold playCard
    rw [hw]
    rfl
  · cases user <;> rfl

/-- Witness for C3: the unconditional pay-and-move on `gPoor` (0 mana,
1-cost card). -/
theorem C3_theorem_witness :
    playCard quickStrike Side.player gPoor =
      checkWin (applyEffects quickStrike Side.player
        (payAndMove quickStrike Side.player gPoor)) ∧
    (payAndMove quickStrike Side.player gPoor).side Side.player =
      { gPoor.side Side.player with
        hand := (gPoor.side Side.player).hand.filter
          (fun c => c.id != quickStrike.id),
        graveyard := (gPoor.side Side.player).graveyard ++ [quickStrike],
        mana := (gPoor.side Side.player).mana - quickStrike.cost } :=
  C3_theorem gPoor quickStrike Side.player rfl

/-- Claim C8: from battle creation, along every sequence of valid intents,
each side's health stays in [0, maxHealth], mana stays in [0, 10], shield
stays non-negative, and each hand holds at most 6 cards. -/
theorem C8_theorem {pc oc : Champion} {pd od : List Card}
    (hp1 : 0 ≤ pc.maxHealth) (ho1 : 0 ≤ oc.maxHealth)
    (hp2 : 0 ≤ pc.ability.cost) (ho2 : 0 ≤ oc.ability.cost)
    (hp3 : ∀ c ∈ pd, cardOK c) (ho3 : ∀ c ∈ od, cardOK c)
    {g : GameState} (hg : Reachable (initGameState pc pd oc od) g) :
    boundsOK g.player ∧ boundsOK g.opponent := by
  have h := invOK_reachable (initGameState_invOK hp1 ho1 hp2 ho2 hp3 ho3) hg
  exact ⟨h.1.1, h.2.1.1⟩

/-- Witness for C8: the bounds hold on the concrete freshly-created battle
state `gInit`. -/
theorem C8_theorem_witness : boundsOK gInit.player ∧ boundsOK gInit.opponent :=
  C8_theorem (by decide) (by decide) (by decide) (by decide) (by decide)
    (by decide) Reachable.refl

theorem setSide_self (g : GameState) (s : Side) : g.setSide s (g.side s) = g := by
  cases s <;> rfl

/-- A card whose parsed effect amounts are all zero resolves to a pure log
append: none of the four effect blocks fire. -/
theorem applyEffects_noop {card : Card} (user : Side) (g : GameState)
    (hE : effectAmounts card = { damage := 0, heal := 0, shieldGain := 0, manaGain := 0 }) :
    applyEffects card user g =
      { g with battleLog := g.battleLog ++ [flavorText card user] } := by
  unfold applyEffects
  rw [hE]
  dsimp only []
  simp only [applyDamage_zero, applyHeal_zero, applyShieldGain_zero, applyManaGain_zero,
    setSide_self]

/-- The win check leaves the state unchanged while both sides are alive. -/
theorem checkWin_noWinner {g : GameState} (hp : ¬g.player.health ≤ 0)
    (ho : ¬g.opponent.health ≤ 0) : checkWin g = g := by
  unfold checkWin
  dsimp only []
  rw [if_neg hp, if_neg ho]

/-- A state with the player already at 0 health but the winner still unset
(reachable in the source because `castAbility` runs no win check), holding the
keyword-less Spell Fireball. -/
def gCorner : GameState :=
  { player := mkSide ignis 0 5 0 [] [fireball]
    opponent := mkSide frostbite 35 1 0 [] []
    turn := 1
    isPlayerTurn := true
    battleLog := []
    winner := none }

/-- Claim C10, counterexample: from the dead-but-unsettled state `gCorner`
(player health 0, winner unset), playing the zero-effect Spell Fireball also
sets the winner via the post-resolution win check, so "the only state changes
are removing the card from hand, appending it to the graveyard, deducting its
mana cost, and appending a log entry" is false there. -/
theorem C10_counterexample :
    gCorner.winner = none ∧ gCorner.player.health = 0 ∧
      (playCard fireball Side.player gCorner).winner = some Side.opponent ∧
      playCard fireball Side.player gCorner ≠
        { gCorner.setSide Side.player
            { gCorner.side Side.player with
              hand := (gCorner.side Side.player).hand.filter
                (fun c => c.id != fireball.id),
              graveyard := (gCorner.side Side.player).graveyard ++ [fireball],
              mana := (gCorner.side Side.player).mana - fireball.cost }
          with battleLog := gCorner.battleLog ++ [flavorText fireball Side.player] } := by
  decide

/-- Claim C10, amended: a Spell whose description matches none of the resolver
keywords ("dmg" case-insensitively; "Heal", "Shield", "Mana" case-sensitively)
— such as the catalog card Fireball — applies no damage, heal, shield or mana
gain to either side: playing it (with no winner set) removes the card from
hand, appends it to the graveyard, deducts the cost, appends a log entry, and
then runs only the post-resolution win check on the untouched healths; when
both sides' healths are positive that check changes nothing and those four
changes are the only ones. -/
theorem C10_theorem (g : GameState) (card : Card) (user : Side)
    (hw : g.winner = none)
    (ht : card.type = CardType.SPELL)
    (h1 : strIncludes (strToLower card.description) "dmg" = false)
    (h2 : strIncludes card.description "Heal" = false)
    (h3 : strIncludes card.description "Shield" = false)
    (h4 : strIncludes card.description "Mana" = false) :
    playCard card user g =
      checkWin
        { g.setSide user
            { g.side user with
              hand := (g.side user).hand.filter (fun c => c.id != card.id),
              graveyard := (g.side user).graveyard ++ [card],
              mana := (g.side user).mana - card.cost }
          with battleLog := g.battleLog ++ [flavorText card user] } ∧
    (0 < g.player.health → 0 < g.opponent.health →
      playCard card user g =
        { g.setSide user
            { g.side user with
              hand := (g.side user).hand.filter (fun c => c.id != card.id),
              graveyard := (g.side user).graveyard ++ [card],
              mana := (g.side user).mana - card.cost }
          with battleLog := g.battleLog ++ [flavorText card user] }) := by
  have hE : effectAmounts card =
      { damage := 0, heal := 0, shieldGain := 0, manaGain := 0 } := by
    unfold effectAmounts
    simp [ht, h1, h2, h3, h4]
  have hpc : playCard card user g =
      checkWin (applyEffects card user (payAndMove card user g)) := by
    unfold playCard
    rw [hw]
    rfl
  rw [hpc, applyEffects_noop user (payAndMove card user g) hE]
  refine ⟨by cases user <;> rfl, fun hp ho => ?_⟩
  have hph : ({ payAndMove card user g with
      battleLog := (payAndMove card user g).battleLog ++ [flavorText card user] } :
        GameState).player.health = g.player.health := by
    cases user <;> rfl
  have hoh : ({ payAndMove card user g with
      battleLog := (payAndMove card user g).battleLog ++ [flavorText card user] } :
        GameState).opponent.health = g.opponent.health := by
    cases user <;> rfl
  rw [checkWin_noWinner (by rw [hph]; exact not_le.mpr hp) (by rw [hoh]; exact not_le.mpr ho)]
  cases user <;> rfl

/-- Witness for C10: playing Fireball ("Deal 6 damage.", no keyword matches)
on the live state `gFire` moves the card, pays the cost, logs, and feeds the
untouched healths through the win check, which changes nothing here. -/
theorem C10_theorem_witness :
    (playCard fireball Side.player gFire =
      checkWin
        { gFire.setSide Side.player
            { gFire.side Side.player with
              hand := (gFire.side Side.player).hand.filter
                (fun c => c.id != fireball.id),
              graveyard := (gFire.side Side.player).graveyard ++ [fireball],
              mana := (gFire.side Side.player).mana - fireball.cost }
          with battleLog := gFire.battleLog ++ [flavorText fireball Side.player] }) ∧
    playCard fireball Side.player gFire =
      { gFire.setSide Side.player
          { gFire.side Side.player with
            hand := (gFire.side Side.player).hand.filter
              (fun c => c.id != fireball.id),
            graveyard := (gFire.side Side.player).graveyard ++ [fireball],
            mana := (gFire.side Side.player).mana - fireball.cost }
        with battleLog := gFire.battleLog ++ [flavorText fireball Side.player] } :=
  ⟨(C10_theorem gFire fireball Side.player rfl rfl (by decide) (by decide) (by decide)
      (by decide)).1,
   (C10_theorem gFire fireball Side.player rfl rfl (by decide) (by decide) (by decide)
      (by decide)).2 (by decide) (by decide)⟩

end Fatebound
